import Mathlib

/-!
Verification of the PNG glyph-bitmap loader (pngshim.c) of this FreeType fork.

The file shallowly embeds the routine Load_SBit_Png and its helper
multiply_alpha.  Machine integers are modelled as Nat (unsigned) or Int
(signed) with explicit reductions mod 2^32 where C overflow could matter;
byte buffers are modelled as functions from (signed) byte offsets to byte
values; the external collaborators (the allocator, the PNG decoder
lodepng_decode32 and the bitmap allocator ft_glyphslot_alloc_bitmap, whose
sources are not part of the core file) are modelled as oracle inputs
following the specification's contracts.
-/

namespace Pngshim

/-- Shallow embedding of multiply_alpha from pngshim.c: unsigned 32-bit
arithmetic, temp = alpha * color + 0x80, result (temp + (temp >> 8)) >> 8. -/
def multiply_alpha (alpha color : Nat) : Nat :=
  let temp := (alpha * color + 0x80) % 4294967296
  ((temp + temp / 256) % 4294967296) / 256

/-- One straight-alpha RGBA pixel as produced by the decoder: the four
channel bytes r, g, b, a (the fields of the FT_Vec4 union view). -/
structure Pixel where
  r : Nat
  g : Nat
  b : Nat
  a : Nat

/-- The per-pixel conversion of the loop in Load_SBit_Png: zero the pixel
when alpha is 0, premultiply the channels through multiply_alpha when
alpha is neither 0 nor 0xFF, and pack the 32-bit word as
blue, green shifted by 8, red shifted by 16, alpha shifted by 24. -/
def convertPixel (p : Pixel) : Nat :=
  if p.a = 0 then 0
  else
    let red := if p.a ≠ 255 then multiply_alpha p.a p.r else p.r
    let green := if p.a ≠ 255 then multiply_alpha p.a p.g else p.g
    let blue := if p.a ≠ 255 then multiply_alpha p.a p.b else p.b
    blue ||| green <<< 8 ||| red <<< 16 ||| p.a <<< 24

/-- Blue channel (least significant byte) of a packed 32-bit pixel word. -/
def outB (w : Nat) : Nat := w % 256

/-- Green channel (second byte) of a packed 32-bit pixel word. -/
def outG (w : Nat) : Nat := w / 256 % 256

/-- Red channel (third byte) of a packed 32-bit pixel word. -/
def outR (w : Nat) : Nat := w / 65536 % 256

/-- Alpha channel (most significant byte) of a packed 32-bit pixel word. -/
def outA (w : Nat) : Nat := w / 16777216 % 256

/-- Byte k (little endian, k < 4) of a packed 32-bit pixel word, as laid
out in memory by the union store on the target described by the spec. -/
def wordByte (w k : Nat) : Nat := w / 256 ^ k % 256

/-- The premultiplied value of one color channel for a nonzero alpha, as
computed inside the conversion loop: the channel passes through unchanged
for alpha 0xFF and goes through multiply_alpha otherwise. -/
def premChan (a c : Nat) : Nat := if a ≠ 255 then multiply_alpha a c else c

/-- Pixel mode tag of the premultiplied BGRA format (FT_PIXEL_MODE_BGRA). -/
def FT_PIXEL_MODE_BGRA : Nat := 7

/-- The destination FT_Bitmap of the glyph slot: unsigned width and row
count, signed row pitch in bytes, pixel mode tag, gray count, and the
backing byte store modelled as a function from signed byte offsets to
byte values. -/
structure FTBitmap where
  width : Nat
  rows : Nat
  pitch : Int
  pixel_mode : Nat
  num_grays : Nat
  buffer : Int → Nat

/-- The TT_SBit_Metrics fields the routine touches: width and height,
16-bit unsigned values. -/
structure SBitMetrics where
  width : Nat
  height : Nat

/-- The FreeType error classes this routine can return. -/
inductive FTError where
  | Ok
  | Invalid_Argument
  | Out_Of_Memory
  | Unknown_File_Format
  | Array_Too_Large
deriving DecidableEq

/-- Modelled from the spec: the outcome of the external PNG decoder call
(lodepng_decode32, whose source is not part of the core file).  Success
yields the authoritative width and height and a row-major straight-alpha
RGBA pixel array, given as a function from the flat pixel index to the
channel bytes; failure is a nonzero status with no usable output. -/
inductive DecodeResult where
  | err : DecodeResult
  | ok : Nat → Nat → (Nat → Pixel) → DecodeResult

/-- One invocation's inputs: the C arguments plus oracles for the external
collaborators.  scratchAllocOk is the success of the scratch memory->alloc
call; decode is the decoder outcome; destAllocError is what
ft_glyphslot_alloc_bitmap reports (Ok meaning success) and destFreshBuf
the store it installs as map->buffer on success — the latter three are
modelled from the spec, their sources not being part of the core file. -/
structure LoadInput where
  x_offset : Int
  y_offset : Int
  pix_bits : Int
  metrics : SBitMetrics
  map : FTBitmap
  scratchAllocOk : Bool
  decode : DecodeResult
  destAllocError : FTError
  destFreshBuf : Int → Nat
  populate : Bool
  metricsOnly : Bool

/-- One invocation's observable outcome: the returned error, the final
metrics and bitmap, audit counters for the scratch allocator (successful
memory->alloc calls and memory->free calls), and whether the destination
bitmap allocation was invoked. -/
structure LoadResult where
  error : FTError
  metrics : SBitMetrics
  map : FTBitmap
  scratchAllocs : Nat
  scratchFrees : Nat
  destAllocCalled : Bool

/-- Store one byte value at one signed offset of a byte store. -/
def writeByte (buf : Int → Nat) (ofs : Int) (v : Nat) : Int → Nat :=
  fun o => if o = ofs then v else buf o

/-- The memcpy of n bytes from a flat source byte array (read at
srcBase + j) to destination offsets dst + j of the buffer. -/
def copyBytes (buf : Int → Nat) (dst : Int) (src : Nat → Nat) (srcBase : Nat) :
    Nat → (Int → Nat)
  | 0 => buf
  | n + 1 => writeByte (copyBytes buf dst src srcBase n) (dst + n) (src (srcBase + n))

/-- The blit loop of Load_SBit_Png: for i = 0 .. h-1 copy the 4*w bytes of
converted row i to destination offset (y_offset + i) * pitch +
x_offset_pos, in increasing row order as the C loop does. -/
def blitRows (buf : Int → Nat) (pitch x_offset_pos y_offset : Int) (src : Nat → Nat)
    (w : Nat) : Nat → (Int → Nat)
  | 0 => buf
  | i + 1 => copyBytes (blitRows buf pitch x_offset_pos y_offset src w i)
      ((y_offset + i) * pitch + x_offset_pos) src (i * (4 * w)) (4 * w)

/-- Byte j of the converted scratch buffer: byte j mod 4 (little endian,
as the union stores the packed word) of the converted pixel at flat pixel
index j / 4. -/
def convertedByte (px : Nat → Pixel) (j : Nat) : Nat :=
  wordByte (convertPixel (px (j / 4))) (j % 4)

/-- Continuation of Load_SBit_Png after a successful decode reporting
imgWidth, imgHeight and pixels px: the verify-mode dimension check, the
populate-mode metrics adoption with its FT_UShort truncation and the
0x7FFF bound, the metrics_only early exit, the destination allocation in
populate mode, and the premultiply-and-blit, the scratch buffer being
freed at DestroyExit on each of these paths. -/
def loadDecoded (inp : LoadInput) (imgWidth imgHeight : Nat) (px : Nat → Pixel) :
    LoadResult :=
  if inp.populate = false ∧
      (imgWidth ≠ inp.metrics.width ∨ imgHeight ≠ inp.metrics.height) then
    ⟨.Ok, inp.metrics, inp.map, 1, 1, false⟩
  else
    let metricsNew : SBitMetrics :=
      if inp.populate = true then ⟨imgWidth % 65536, imgHeight % 65536⟩ else inp.metrics
    let mapNew : FTBitmap :=
      if inp.populate = true then
        { inp.map with
          width := imgWidth % 65536
          rows := imgHeight % 65536
          pixel_mode := FT_PIXEL_MODE_BGRA
          pitch := ((imgWidth % 65536) * 4 : Nat)
          num_grays := 256 }
      else inp.map
    if inp.populate = true ∧ (32767 < mapNew.rows ∨ 32767 < mapNew.width) then
      ⟨.Array_Too_Large, metricsNew, mapNew, 1, 1, false⟩
    else if inp.metricsOnly = true then
      ⟨.Ok, metricsNew, mapNew, 1, 1, false⟩
    else if inp.populate = true ∧ inp.destAllocError ≠ .Ok then
      ⟨inp.destAllocError, metricsNew, mapNew, 1, 1, true⟩
    else
      ⟨.Ok, metricsNew,
        { mapNew with
          buffer := blitRows
            (if inp.populate = true then inp.destFreshBuf else inp.map.buffer)
            mapNew.pitch (inp.x_offset * 4) inp.y_offset (convertedByte px)
            imgWidth imgHeight },
        1, 1, inp.populate⟩

/-- Shallow embedding of Load_SBit_Png: the negative-offset guard, the
non-populate sub-rectangle and format guard, the scratch allocation with
its Out_Of_Memory path, the decode with its Unknown_File_Format path —
which jumps to the Exit label, not DestroyExit, so no free happens there —
and then loadDecoded for the rest. -/
def Load_SBit_Png (inp : LoadInput) : LoadResult :=
  if inp.x_offset < 0 ∨ inp.y_offset < 0 then
    ⟨.Invalid_Argument, inp.metrics, inp.map, 0, 0, false⟩
  else if inp.populate = false ∧
      (inp.map.width < inp.x_offset.toNat + inp.metrics.width ∨
       inp.map.rows < inp.y_offset.toNat + inp.metrics.height ∨
       inp.pix_bits ≠ 32 ∨
       inp.map.pixel_mode ≠ FT_PIXEL_MODE_BGRA) then
    ⟨.Invalid_Argument, inp.metrics, inp.map, 0, 0, false⟩
  else if inp.scratchAllocOk = false then
    ⟨.Out_Of_Memory, inp.metrics, inp.map, 0, 0, false⟩
  else
    match inp.decode with
    | .err => ⟨.Unknown_File_Format, inp.metrics, inp.map, 1, 0, false⟩
    | .ok imgWidth imgHeight px => loadDecoded inp imgWidth imgHeight px

/-- An all-zero byte store, used for concrete instances. -/
def zeroBuf : Int → Nat := fun _ => 0

/-- A constant pixel array, used for concrete instances. -/
def pxConst (p : Pixel) : Nat → Pixel := fun _ => p

/-- Concrete call for claim C1: valid non-populate setup whose scratch
allocation succeeds while the decoder reports an error. -/
def c1Input : LoadInput :=
  { x_offset := 0, y_offset := 0, pix_bits := 32, metrics := ⟨1, 1⟩,
    map := ⟨4, 4, 16, FT_PIXEL_MODE_BGRA, 256, zeroBuf⟩, scratchAllocOk := true,
    decode := .err, destAllocError := .Ok, destFreshBuf := zeroBuf,
    populate := false, metricsOnly := false }

/-- Concrete call for claim C3: populate-mode metrics probe whose decoder
reports width 65536, which exceeds 0x7FFF but truncates to 0. -/
def c3Input : LoadInput :=
  { x_offset := 0, y_offset := 0, pix_bits := 32, metrics := ⟨1, 1⟩,
    map := ⟨0, 0, 0, 0, 0, zeroBuf⟩, scratchAllocOk := true,
    decode := .ok 65536 1 (pxConst ⟨0, 0, 0, 0⟩), destAllocError := .Ok,
    destFreshBuf := zeroBuf, populate := true, metricsOnly := true }

/-- Concrete call for the claim C6 counterexample: metrics-only populate
probe whose decoded width 32768 exceeds the 0x7FFF bound. -/
def c6Input : LoadInput :=
  { x_offset := 0, y_offset := 0, pix_bits := 32, metrics := ⟨1, 1⟩,
    map := ⟨0, 0, 0, 0, 0, zeroBuf⟩, scratchAllocOk := true,
    decode := .ok 32768 1 (pxConst ⟨0, 0, 0, 0⟩), destAllocError := .Ok,
    destFreshBuf := zeroBuf, populate := true, metricsOnly := true }

/-- Concrete call for the claim C6 witness: metrics-only populate probe of
a 3 by 2 image within bounds. -/
def c6okInput : LoadInput :=
  { x_offset := 0, y_offset := 0, pix_bits := 32, metrics := ⟨1, 1⟩,
    map := ⟨0, 0, 0, 0, 0, zeroBuf⟩, scratchAllocOk := true,
    decode := .ok 3 2 (pxConst ⟨1, 2, 3, 4⟩), destAllocError := .Ok,
    destFreshBuf := zeroBuf, populate := true, metricsOnly := true }

/-- Concrete call for the claim C4 witness: verify mode with fixed metrics
2 by 2 while the decoder reports 1 by 1. -/
def c4Input : LoadInput :=
  { x_offset := 0, y_offset := 0, pix_bits := 32, metrics := ⟨2, 2⟩,
    map := ⟨4, 4, 16, FT_PIXEL_MODE_BGRA, 256, zeroBuf⟩, scratchAllocOk := true,
    decode := .ok 1 1 (pxConst ⟨1, 2, 3, 255⟩), destAllocError := .Ok,
    destFreshBuf := zeroBuf, populate := false, metricsOnly := false }

/-- Concrete call for the claim C5 witness: a negative x offset. -/
def c5Input : LoadInput :=
  { x_offset := -1, y_offset := 0, pix_bits := 32, metrics := ⟨1, 1⟩,
    map := ⟨4, 4, 16, FT_PIXEL_MODE_BGRA, 256, zeroBuf⟩, scratchAllocOk := true,
    decode := .err, destAllocError := .Ok, destFreshBuf := zeroBuf,
    populate := false, metricsOnly := false }

/-- Concrete call for the claim C7 witness: verify-mode blit of a single
opaque pixel at offset (0, 0) into a 1 by 1 map prefilled with byte 9. -/
def c7Input : LoadInput :=
  { x_offset := 0, y_offset := 0, pix_bits := 32, metrics := ⟨1, 1⟩,
    map := ⟨1, 1, 4, FT_PIXEL_MODE_BGRA, 256, fun _ => 9⟩, scratchAllocOk := true,
    decode := .ok 1 1 (pxConst ⟨1, 2, 3, 255⟩), destAllocError := .Ok,
    destFreshBuf := zeroBuf, populate := false, metricsOnly := false }

end Pngshim

namespace Pngshim

theorem multiply_alpha_eq_of_le (x : Nat) (hx : x ≤ 65025) :
    (x + 128 + (x + 128) / 256) / 256 = (2 * x + 255) / 510 := by
  omega

theorem multiply_alpha_spec :
    ∀ a, a < 256 → ∀ c, c < 256 →
      multiply_alpha a c = (2 * a * c + 255) / 510 ∧ multiply_alpha a c < 256 := by
  intro a ha c hc
  have hx : a * c ≤ 65025 := Nat.mul_le_mul (show a ≤ 255 by omega) (show c ≤ 255 by omega)
  have h2 : 2 * a * c = 2 * (a * c) := Nat.mul_assoc 2 a c
  simp only [multiply_alpha]
  rw [h2]
  revert hx
  generalize a * c = x
  intro hx
  have e1 : (x + 128) % 4294967296 = x + 128 := Nat.mod_eq_of_lt (by omega)
  rw [e1]
  have e2 : (x + 128 + (x + 128) / 256) % 4294967296 = x + 128 + (x + 128) / 256 :=
    Nat.mod_eq_of_lt (by omega)
  rw [e2]
  refine ⟨multiply_alpha_eq_of_le x hx, ?_⟩
  omega

theorem premChan_lt (a c : Nat) (ha : a < 256) (hc : c < 256) : premChan a c < 256 := by
  unfold premChan
  split
  · exact (multiply_alpha_spec a ha c hc).2
  · exact hc

theorem lor_shift_add (x y k : Nat) (hx : x < 2 ^ k) : x ||| y <<< k = 2 ^ k * y + x := by
  rw [Nat.shiftLeft_eq, Nat.mul_comm y (2 ^ k), Nat.lor_comm]
  exact (Nat.mul_add_lt_is_or hx y).symm

theorem pack_eq_add (b g r a : Nat) (hb : b < 256) (hg : g < 256) (hr : r < 256)
    (ha : a < 256) :
    b ||| g <<< 8 ||| r <<< 16 ||| a <<< 24 =
      b + 256 * g + 65536 * r + 16777216 * a := by
  have e8 : (2 : Nat) ^ 8 = 256 := by norm_num
  have e16 : (2 : Nat) ^ 16 = 65536 := by norm_num
  have e24 : (2 : Nat) ^ 24 = 16777216 := by norm_num
  have h1 : b ||| g <<< 8 = 2 ^ 8 * g + b := lor_shift_add b g 8 (by omega)
  have h2 : b ||| g <<< 8 ||| r <<< 16 = 2 ^ 16 * r + (2 ^ 8 * g + b) := by
    rw [h1]
    exact lor_shift_add _ r 16 (by rw [e16]; omega)
  have h3 : b ||| g <<< 8 ||| r <<< 16 ||| a <<< 24 =
      2 ^ 24 * a + (2 ^ 16 * r + (2 ^ 8 * g + b)) := by
    rw [h2]
    exact lor_shift_add _ a 24 (by rw [e24]; omega)
  rw [h3, e8, e16, e24]
  omega

theorem convertPixel_eq_add (p : Pixel) (hr : p.r < 256) (hg : p.g < 256)
    (hb : p.b < 256) (ha : p.a < 256) (h0 : p.a ≠ 0) :
    convertPixel p =
      premChan p.a p.b + 256 * premChan p.a p.g + 65536 * premChan p.a p.r +
        16777216 * p.a := by
  unfold convertPixel premChan
  rw [if_neg h0]
  exact pack_eq_add _ _ _ _ (premChan_lt _ _ ha hb) (premChan_lt _ _ ha hg)
    (premChan_lt _ _ ha hr) ha

theorem out_extract (B G R A : Nat) (hB : B < 256) (hG : G < 256) (hR : R < 256)
    (hA : A < 256) :
    outB (B + 256 * G + 65536 * R + 16777216 * A) = B ∧
      outG (B + 256 * G + 65536 * R + 16777216 * A) = G ∧
      outR (B + 256 * G + 65536 * R + 16777216 * A) = R ∧
      outA (B + 256 * G + 65536 * R + 16777216 * A) = A := by
  unfold outB outG outR outA
  refine ⟨?_, ?_, ?_, ?_⟩ <;> omega

/-- Claim C9: for all alpha and color in the byte range, multiply_alpha,
computed as ((alpha*color + 0x80) + ((alpha*color + 0x80) >> 8)) >> 8,
equals alpha * color / 255 rounded to the nearest integer, written as the
floor of (alpha*color/255 + 1/2), i.e. (2*alpha*color + 255) / 510 in
exact integer arithmetic, and the result always lies in the byte range. -/
theorem C9_multiply_alpha_rounds (a : Nat) (ha : a ≤ 255) (c : Nat) (hc : c ≤ 255) :
    multiply_alpha a c = (2 * a * c + 255) / 510 ∧ multiply_alpha a c ≤ 255 := by
  have h := multiply_alpha_spec a (by omega) c (by omega)
  exact ⟨h.1, by omega⟩

theorem C9_multiply_alpha_rounds_witness :
    multiply_alpha 128 255 = (2 * 128 * 255 + 255) / 510 ∧ multiply_alpha 128 255 ≤ 255 :=
  C9_multiply_alpha_rounds 128 (by decide) 255 (by decide)

/-- Claim C2 counterexample: the claim says the premultiplied channel equals
round((alpha * channel + 128) / 256).  At alpha = 1, channel red = 1 the
conversion produces red 0 while round((1*1 + 128) / 256) = round(129/256)
is 1 under rounding to the nearest integer; under the alternative reading
of / as integer division, at alpha = 254, red = 255 the conversion
produces 254 while (254*255 + 128) / 256 = 253. -/
theorem C2_counterexample :
    outR (convertPixel ⟨1, 0, 0, 1⟩) = 0 ∧ round ((1 * 1 + 128 : ℚ) / 256) = 1 ∧
      outR (convertPixel ⟨255, 0, 0, 254⟩) = 254 ∧ (254 * 255 + 128) / 256 = 253 := by
  refine ⟨by decide, ?_, by decide, by decide⟩
  rw [round_eq]
  norm_num

/-- Claim C2 (amended): for every decoded pixel whose alpha a satisfies
0 < a < 255 and color channels in the byte range, each premultiplied
channel value produced by the conversion equals a * c / 255 rounded to the
nearest integer, i.e. (2 * a * c + 255) / 510 — not
round((a * c + 128) / 256). -/
theorem C2_premultiplied_channels (p : Pixel) (hr : p.r ≤ 255) (hg : p.g ≤ 255)
    (hb : p.b ≤ 255) (ha0 : 0 < p.a) (ha : p.a < 255) :
    outR (convertPixel p) = (2 * p.a * p.r + 255) / 510 ∧
      outG (convertPixel p) = (2 * p.a * p.g + 255) / 510 ∧
      outB (convertPixel p) = (2 * p.a * p.b + 255) / 510 := by
  have ha' : p.a < 256 := by omega
  have hcv := convertPixel_eq_add p (by omega) (by omega) (by omega) ha' (by omega)
  have hpc : ∀ c, c < 256 → premChan p.a c = (2 * p.a * c + 255) / 510 := by
    intro c hc
    unfold premChan
    rw [if_pos (by omega)]
    exact (multiply_alpha_spec p.a ha' c hc).1
  have hbb := premChan_lt p.a p.b ha' (by omega)
  have hgb := premChan_lt p.a p.g ha' (by omega)
  have hrb := premChan_lt p.a p.r ha' (by omega)
  have hx := out_extract (premChan p.a p.b) (premChan p.a p.g) (premChan p.a p.r) p.a
    hbb hgb hrb ha'
  rw [hcv]
  refine ⟨?_, ?_, ?_⟩
  · rw [hx.2.2.1]
    exact hpc p.r (by omega)
  · rw [hx.2.1]
    exact hpc p.g (by omega)
  · rw [hx.1]
    exact hpc p.b (by omega)

theorem C2_premultiplied_channels_witness :
    outR (convertPixel ⟨255, 0, 0, 128⟩) = (2 * 128 * 255 + 255) / 510 ∧
      outG (convertPixel ⟨255, 0, 0, 128⟩) = (2 * 128 * 0 + 255) / 510 ∧
      outB (convertPixel ⟨255, 0, 0, 128⟩) = (2 * 128 * 0 + 255) / 510 :=
  C2_premultiplied_channels ⟨255, 0, 0, 128⟩ (by decide) (by decide) (by decide)
    (by decide) (by decide)

/-- Claim C8: per decoded pixel, alpha 0 forces an all-zero output word
regardless of the color input; alpha 255 passes the color channels through
unchanged; and every nonzero alpha packs the output word as
blue OR green shifted by 8 OR red shifted by 16 OR alpha shifted by 24. -/
theorem C8_pixel_packing (r g b a : Nat) (hr : r ≤ 255) (hg : g ≤ 255) (hb : b ≤ 255)
    (ha : a ≤ 255) :
    (a = 0 → convertPixel ⟨r, g, b, a⟩ = 0) ∧
      (a = 255 →
        outR (convertPixel ⟨r, g, b, a⟩) = r ∧ outG (convertPixel ⟨r, g, b, a⟩) = g ∧
          outB (convertPixel ⟨r, g, b, a⟩) = b ∧ outA (convertPixel ⟨r, g, b, a⟩) = 255) ∧
      (a ≠ 0 → convertPixel ⟨r, g, b, a⟩ =
        premChan a b ||| premChan a g <<< 8 ||| premChan a r <<< 16 ||| a <<< 24) := by
  refine ⟨fun h => by simp [convertPixel, h], ?_, ?_⟩
  · intro h255
    have hcv0 := convertPixel_eq_add ⟨r, g, b, a⟩ (show r < 256 by omega)
      (show g < 256 by omega) (show b < 256 by omega) (show a < 256 by omega)
      (show a ≠ 0 by omega)
    have hcv : convertPixel ⟨r, g, b, a⟩ =
        premChan a b + 256 * premChan a g + 65536 * premChan a r + 16777216 * a := hcv0
    have hpc : ∀ c, premChan a c = c := fun c => by
      unfold premChan
      rw [if_neg (by omega)]
    rw [hpc, hpc, hpc] at hcv
    have hx := out_extract b g r a (by omega) (by omega) (by omega) (by omega)
    rw [hcv]
    exact ⟨hx.2.2.1, hx.2.1, hx.1, by rw [hx.2.2.2, h255]⟩
  · intro h0
    unfold convertPixel
    rw [if_neg (show ¬(Pixel.mk r g b a).a = 0 from h0)]
    rfl

theorem C8_pixel_packing_witness :
    outR (convertPixel ⟨9, 8, 7, 255⟩) = 9 ∧ outG (convertPixel ⟨9, 8, 7, 255⟩) = 8 ∧
      outB (convertPixel ⟨9, 8, 7, 255⟩) = 7 ∧ outA (convertPixel ⟨9, 8, 7, 255⟩) = 255 :=
  (C8_pixel_packing 9 8 7 255 (by decide) (by decide) (by decide) (by decide)).2.1 rfl

/-- Claim C10: every converted pixel is a valid premultiplied pixel, its
blue, green and red output bytes never exceeding its alpha output byte. -/
theorem C10_premultiplied_invariant (p : Pixel) (hr : p.r ≤ 255) (hg : p.g ≤ 255)
    (hb : p.b ≤ 255) (ha : p.a ≤ 255) :
    outB (convertPixel p) ≤ outA (convertPixel p) ∧
      outG (convertPixel p) ≤ outA (convertPixel p) ∧
      outR (convertPixel p) ≤ outA (convertPixel p) := by
  by_cases h0 : p.a = 0
  · simp [convertPixel, h0, outB, outG, outR, outA]
  · have hcv := convertPixel_eq_add p (by omega) (by omega) (by omega) (by omega) h0
    have key : ∀ c, c ≤ 255 → premChan p.a c ≤ p.a := by
      intro c hc
      unfold premChan
      split
      · rw [(multiply_alpha_spec p.a (by omega) c (by omega)).1]
        have h2 : 2 * p.a * c + 255 < 510 * (p.a + 1) := by nlinarith
        omega
      · omega
    have hbb := premChan_lt p.a p.b (by omega) (by omega)
    have hgb := premChan_lt p.a p.g (by omega) (by omega)
    have hrb := premChan_lt p.a p.r (by omega) (by omega)
    have hx := out_extract (premChan p.a p.b) (premChan p.a p.g) (premChan p.a p.r) p.a
      hbb hgb hrb (by omega)
    rw [hcv, hx.1, hx.2.1, hx.2.2.1, hx.2.2.2]
    exact ⟨key p.b hb, key p.g hg, key p.r hr⟩

theorem copyBytes_notin (buf : Int → Nat) (dst : Int) (src : Nat → Nat) (srcBase : Nat)
    (n : Nat) (o : Int) (h : o < dst ∨ dst + n ≤ o) :
    copyBytes buf dst src srcBase n o = buf o := by
  induction n with
  | zero => rfl
  | succ k ih =>
    simp only [copyBytes, writeByte]
    rw [if_neg (by omega)]
    exact ih (by omega)

theorem copyBytes_in (buf : Int → Nat) (dst : Int) (src : Nat → Nat) (srcBase : Nat)
    (n k : Nat) (hk : k < n) :
    copyBytes buf dst src srcBase n (dst + k) = src (srcBase + k) := by
  induction n with
  | zero => exact absurd hk (by omega)
  | succ m ih =>
    rcases Nat.lt_succ_iff_lt_or_eq.mp hk with h | h
    · simp only [copyBytes, writeByte]
      rw [if_neg (by omega)]
      exact ih h
    · subst h
      simp only [copyBytes, writeByte]
      simp

theorem blitRows_notin (buf : Int → Nat) (pitch x4 y0 : Int) (src : Nat → Nat)
    (w h : Nat) (o : Int)
    (ho : ∀ i : Nat, i < h →
      o < (y0 + i) * pitch + x4 ∨ (y0 + i) * pitch + x4 + ((4 * w : Nat) : Int) ≤ o) :
    blitRows buf pitch x4 y0 src w h o = buf o := by
  induction h with
  | zero => rfl
  | succ m ih =>
    simp only [blitRows]
    rw [copyBytes_notin _ _ _ _ _ _ (ho m (by omega))]
    exact ih fun i hi => ho i (by omega)

theorem blitRows_in (buf : Int → Nat) (pitch x4 y0 : Int) (src : Nat → Nat)
    (w h i k : Nat) (hi : i < h) (hk : k < 4 * w) (hpitch : 4 * (w : Int) ≤ pitch) :
    blitRows buf pitch x4 y0 src w h ((y0 + i) * pitch + x4 + k) =
      src (i * (4 * w) + k) := by
  have hp0 : 0 ≤ pitch := le_trans (by positivity) hpitch
  have hkp : (k : Int) < pitch := by
    have : (k : Int) < 4 * (w : Int) := by exact_mod_cast hk
    omega
  induction h with
  | zero => exact absurd hi (by omega)
  | succ m ih =>
    simp only [blitRows]
    rcases Nat.lt_succ_iff_lt_or_eq.mp hi with h' | h'
    · rw [copyBytes_notin]
      · exact ih h'
      · left
        have h1 : (1 : Int) ≤ (m : Int) - i := by
          have : (i : Int) < (m : Int) := by exact_mod_cast h'
          omega
        have h2 : pitch ≤ ((m : Int) - i) * pitch := le_mul_of_one_le_left hp0 h1
        have key : (y0 + (m : Int)) * pitch = (y0 + (i : Int)) * pitch +
            ((m : Int) - i) * pitch := by ring
        rw [key]
        linarith
    · subst h'
      exact copyBytes_in _ _ _ _ _ _ hk

theorem loadDecoded_allocs (inp : LoadInput) (w h : Nat) (px : Nat → Pixel) :
    (loadDecoded inp w h px).scratchAllocs = 1 := by
  simp only [loadDecoded]
  split_ifs <;> rfl

theorem Load_verify_success (inp : LoadInput) (hpop : inp.populate = false)
    (hmo : inp.metricsOnly = false)
    (hx : 0 ≤ inp.x_offset) (hy : 0 ≤ inp.y_offset)
    (hgw : inp.x_offset.toNat + inp.metrics.width ≤ inp.map.width)
    (hgh : inp.y_offset.toNat + inp.metrics.height ≤ inp.map.rows)
    (hp : inp.pix_bits = 32) (hmode : inp.map.pixel_mode = FT_PIXEL_MODE_BGRA)
    (halloc : inp.scratchAllocOk = true)
    (w h : Nat) (px : Nat → Pixel) (hdec : inp.decode = .ok w h px)
    (hw : w = inp.metrics.width) (hh : h = inp.metrics.height) :
    Load_SBit_Png inp =
      ⟨.Ok, inp.metrics,
        { inp.map with
          buffer := blitRows inp.map.buffer inp.map.pitch (inp.x_offset * 4)
            inp.y_offset (convertedByte px) w h }, 1, 1, false⟩ := by
  have hguard2 : ¬(inp.populate = false ∧
      (inp.map.width < inp.x_offset.toNat + inp.metrics.width ∨
       inp.map.rows < inp.y_offset.toNat + inp.metrics.height ∨
       inp.pix_bits ≠ 32 ∨
       inp.map.pixel_mode ≠ FT_PIXEL_MODE_BGRA)) := by
    rintro ⟨-, hA | hB | hC | hD⟩
    · omega
    · omega
    · exact hC hp
    · exact hD hmode
  have hnomm : ¬(inp.populate = false ∧
      (w ≠ inp.metrics.width ∨ h ≠ inp.metrics.height)) := by
    rintro ⟨-, h1 | h2⟩
    · exact h1 hw
    · exact h2 hh
  unfold Load_SBit_Png
  rw [if_neg (by omega), if_neg hguard2, if_neg (by simp [halloc]), hdec]
  show loadDecoded inp w h px = _
  unfold loadDecoded
  rw [if_neg hnomm]
  simp only [hpop]
  simp [hmo]

theorem C10_premultiplied_invariant_witness :
    outB (convertPixel ⟨200, 100, 50, 77⟩) ≤ outA (convertPixel ⟨200, 100, 50, 77⟩) ∧
      outG (convertPixel ⟨200, 100, 50, 77⟩) ≤ outA (convertPixel ⟨200, 100, 50, 77⟩) ∧
      outR (convertPixel ⟨200, 100, 50, 77⟩) ≤ outA (convertPixel ⟨200, 100, 50, 77⟩) :=
  C10_premultiplied_invariant ⟨200, 100, 50, 77⟩ (by decide) (by decide) (by decide)
    (by decide)

theorem guard2_false (inp : LoadInput)
    (hrect : inp.populate = false →
      inp.x_offset.toNat + inp.metrics.width ≤ inp.map.width ∧
      inp.y_offset.toNat + inp.metrics.height ≤ inp.map.rows ∧
      inp.pix_bits = 32 ∧ inp.map.pixel_mode = FT_PIXEL_MODE_BGRA) :
    ¬(inp.populate = false ∧
      (inp.map.width < inp.x_offset.toNat + inp.metrics.width ∨
       inp.map.rows < inp.y_offset.toNat + inp.metrics.height ∨
       inp.pix_bits ≠ 32 ∨
       inp.map.pixel_mode ≠ FT_PIXEL_MODE_BGRA)) := by
  rintro ⟨hpop, hrest⟩
  rcases hrect hpop with ⟨h1, h2, h3, h4⟩
  rcases hrest with hA | hB | hC | hD
  · omega
  · omega
  · exact hC h3
  · exact hD h4

theorem Load_eq_loadDecoded (inp : LoadInput)
    (hx : 0 ≤ inp.x_offset) (hy : 0 ≤ inp.y_offset)
    (hguard2 : ¬(inp.populate = false ∧
      (inp.map.width < inp.x_offset.toNat + inp.metrics.width ∨
       inp.map.rows < inp.y_offset.toNat + inp.metrics.height ∨
       inp.pix_bits ≠ 32 ∨
       inp.map.pixel_mode ≠ FT_PIXEL_MODE_BGRA)))
    (halloc : inp.scratchAllocOk = true)
    (w h : Nat) (px : Nat → Pixel) (hdec : inp.decode = .ok w h px) :
    Load_SBit_Png inp = loadDecoded inp w h px := by
  unfold Load_SBit_Png
  rw [if_neg (by omega), if_neg hguard2, if_neg (by simp [halloc]), hdec]

theorem loadDecoded_mismatch (inp : LoadInput) (w h : Nat) (px : Nat → Pixel)
    (hpop : inp.populate = false)
    (hnm : w ≠ inp.metrics.width ∨ h ≠ inp.metrics.height) :
    loadDecoded inp w h px = ⟨.Ok, inp.metrics, inp.map, 1, 1, false⟩ := by
  unfold loadDecoded
  rw [if_pos ⟨hpop, hnm⟩]

theorem loadDecoded_mo_pop (inp : LoadInput) (w h : Nat) (px : Nat → Pixel)
    (hpop : inp.populate = true) (hmo : inp.metricsOnly = true)
    (h1 : w % 65536 ≤ 32767) (h2 : h % 65536 ≤ 32767) :
    loadDecoded inp w h px =
      ⟨.Ok, ⟨w % 65536, h % 65536⟩,
        { inp.map with
          width := w % 65536
          rows := h % 65536
          pixel_mode := FT_PIXEL_MODE_BGRA
          pitch := ((w % 65536) * 4 : Nat)
          num_grays := 256 }, 1, 1, false⟩ := by
  simp only [loadDecoded]
  rw [if_neg (by simp [hpop])]
  simp [hpop, hmo]
  omega

theorem loadDecoded_mo_verify (inp : LoadInput) (w h : Nat) (px : Nat → Pixel)
    (hpop : inp.populate = false) (hmo : inp.metricsOnly = true)
    (hw : w = inp.metrics.width) (hh : h = inp.metrics.height) :
    loadDecoded inp w h px = ⟨.Ok, inp.metrics, inp.map, 1, 1, false⟩ := by
  have hnomm : ¬(inp.populate = false ∧
      (w ≠ inp.metrics.width ∨ h ≠ inp.metrics.height)) := by
    rintro ⟨-, hA | hB⟩
    · exact hA hw
    · exact hB hh
  simp only [loadDecoded]
  rw [if_neg hnomm]
  simp [hpop, hmo]

/-- Claim C1 (evaluation of the code on the failing path): a valid
non-populate call whose scratch allocation succeeds and whose decoder
reports an error returns Unknown_File_Format — but, the error branch
jumping to the Exit label past the DestroyExit free, the call performs
one successful scratch allocation and zero frees, so the scratch buffer
is leaked rather than released as the claim states. -/
theorem C1_decode_error_leak :
    (Load_SBit_Png c1Input).error = .Unknown_File_Format ∧
      (Load_SBit_Png c1Input).scratchAllocs = 1 ∧
      (Load_SBit_Png c1Input).scratchFrees = 0 := by
  refine ⟨rfl, rfl, rfl⟩

/-- Claim C3 (evaluation of the code on the failing input): in populate
mode a decoder-reported width of 65536 exceeds 0x7FFF, yet the dimensions
are truncated to FT_UShort before the 0x7FFF bound is checked, so width
65536 becomes 0, the check passes and the call returns Ok instead of
Array_Too_Large (no destination allocation happens on this metrics-only
probe either). -/
theorem C3_truncation_bypasses_bound :
    32767 < 65536 ∧ (Load_SBit_Png c3Input).error = .Ok ∧
      (Load_SBit_Png c3Input).destAllocCalled = false := by
  refine ⟨by decide, rfl, rfl⟩

/-- Claim C4: a non-populate call passing the guards whose decode succeeds
with dimensions differing from the fixed metrics returns success, leaves
metrics and map untouched and writes no byte of the destination store. -/
theorem C4_verify_mismatch_skip (inp : LoadInput) (hpop : inp.populate = false)
    (hx : 0 ≤ inp.x_offset) (hy : 0 ≤ inp.y_offset)
    (hgw : inp.x_offset.toNat + inp.metrics.width ≤ inp.map.width)
    (hgh : inp.y_offset.toNat + inp.metrics.height ≤ inp.map.rows)
    (hp : inp.pix_bits = 32) (hmode : inp.map.pixel_mode = FT_PIXEL_MODE_BGRA)
    (halloc : inp.scratchAllocOk = true)
    (w h : Nat) (px : Nat → Pixel) (hdec : inp.decode = .ok w h px)
    (hnm : w ≠ inp.metrics.width ∨ h ≠ inp.metrics.height) :
    (Load_SBit_Png inp).error = .Ok ∧
      (Load_SBit_Png inp).metrics = inp.metrics ∧
      (Load_SBit_Png inp).map = inp.map ∧
      ∀ o : Int, (Load_SBit_Png inp).map.buffer o = inp.map.buffer o := by
  rw [Load_eq_loadDecoded inp hx hy
    (guard2_false inp fun _ => ⟨hgw, hgh, hp, hmode⟩) halloc w h px hdec]
  rw [loadDecoded_mismatch inp w h px hpop hnm]
  exact ⟨rfl, rfl, rfl, fun o => rfl⟩

theorem C4_verify_mismatch_skip_witness :
    (Load_SBit_Png c4Input).error = .Ok ∧
      (Load_SBit_Png c4Input).metrics = c4Input.metrics ∧
      (Load_SBit_Png c4Input).map = c4Input.map ∧
      ∀ o : Int, (Load_SBit_Png c4Input).map.buffer o = c4Input.map.buffer o :=
  C4_verify_mismatch_skip c4Input rfl (by decide) (by decide) (by decide) (by decide)
    rfl rfl rfl 1 1 (pxConst ⟨1, 2, 3, 255⟩) rfl (Or.inl (by decide))

/-- Claim C5: the routine returns Invalid_Argument from the precondition
guard with untouched metrics and map and no allocator activity exactly
when an offset is negative or, in non-populate mode, the sub-rectangle
exceeds the destination, the pixel depth is not 32, or the destination
pixel mode is not premultiplied BGRA. -/
theorem C5_precondition_guard (inp : LoadInput) :
    ((Load_SBit_Png inp).error = .Invalid_Argument ∧
     (Load_SBit_Png inp).metrics = inp.metrics ∧
     (Load_SBit_Png inp).map = inp.map ∧
     (Load_SBit_Png inp).scratchAllocs = 0 ∧
     (Load_SBit_Png inp).scratchFrees = 0 ∧
     (Load_SBit_Png inp).destAllocCalled = false) ↔
    (inp.x_offset < 0 ∨ inp.y_offset < 0 ∨
     (inp.populate = false ∧
       (inp.map.width < inp.x_offset.toNat + inp.metrics.width ∨
        inp.map.rows < inp.y_offset.toNat + inp.metrics.height ∨
        inp.pix_bits ≠ 32 ∨
        inp.map.pixel_mode ≠ FT_PIXEL_MODE_BGRA))) := by
  constructor
  · intro hL
    by_cases h1 : inp.x_offset < 0 ∨ inp.y_offset < 0
    · rcases h1 with h | h
      · exact Or.inl h
      · exact Or.inr (Or.inl h)
    · by_cases h2 : inp.populate = false ∧
          (inp.map.width < inp.x_offset.toNat + inp.metrics.width ∨
           inp.map.rows < inp.y_offset.toNat + inp.metrics.height ∨
           inp.pix_bits ≠ 32 ∨
           inp.map.pixel_mode ≠ FT_PIXEL_MODE_BGRA)
      · exact Or.inr (Or.inr h2)
      · exfalso
        rcases hL with ⟨he, -, -, ha, -, -⟩
        unfold Load_SBit_Png at he ha
        rw [if_neg h1, if_neg h2] at he ha
        by_cases h3 : inp.scratchAllocOk = false
        · rw [if_pos h3] at he
          simp at he
        · rw [if_neg h3] at ha
          cases hd : inp.decode with
          | err =>
            rw [hd] at ha
            simp at ha
          | ok w h px =>
            rw [hd] at ha
            have ha' : (loadDecoded inp w h px).scratchAllocs = 0 := ha
            rw [loadDecoded_allocs inp w h px] at ha'
            simp at ha'
  · intro hcond
    by_cases h1 : inp.x_offset < 0 ∨ inp.y_offset < 0
    · have hres : Load_SBit_Png inp =
          ⟨.Invalid_Argument, inp.metrics, inp.map, 0, 0, false⟩ := by
        unfold Load_SBit_Png
        rw [if_pos h1]
      rw [hres]
      exact ⟨rfl, rfl, rfl, rfl, rfl, rfl⟩
    · have h2 : inp.populate = false ∧
          (inp.map.width < inp.x_offset.toNat + inp.metrics.width ∨
           inp.map.rows < inp.y_offset.toNat + inp.metrics.height ∨
           inp.pix_bits ≠ 32 ∨
           inp.map.pixel_mode ≠ FT_PIXEL_MODE_BGRA) := by
        rcases hcond with h | h | h
        · exact absurd (Or.inl h) h1
        · exact absurd (Or.inr h) h1
        · exact h
      have hres : Load_SBit_Png inp =
          ⟨.Invalid_Argument, inp.metrics, inp.map, 0, 0, false⟩ := by
        unfold Load_SBit_Png
        rw [if_neg h1, if_pos h2]
      rw [hres]
      exact ⟨rfl, rfl, rfl, rfl, rfl, rfl⟩

theorem C5_precondition_guard_witness :
    (Load_SBit_Png c5Input).error = .Invalid_Argument ∧
      (Load_SBit_Png c5Input).metrics = c5Input.metrics ∧
      (Load_SBit_Png c5Input).map = c5Input.map ∧
      (Load_SBit_Png c5Input).scratchAllocs = 0 ∧
      (Load_SBit_Png c5Input).scratchFrees = 0 ∧
      (Load_SBit_Png c5Input).destAllocCalled = false :=
  (C5_precondition_guard c5Input).mpr (Or.inl (by decide))

/-- Claim C6 counterexample: a metrics-only populate call whose PNG
decodes successfully to width 32768 returns Array_Too_Large, not
success, because the resolved dimensions fail the 0x7FFF bound. -/
theorem C6_counterexample :
    c6Input.metricsOnly = true ∧
      (Load_SBit_Png c6Input).error = .Array_Too_Large := by
  exact ⟨rfl, rfl⟩

/-- Claim C6 (amended): a metrics-only call passing the guards whose PNG
decodes successfully — and whose resolved dimensions pass the 0x7FFF
bound in populate mode — returns success, having updated the metrics to
the decoded dimensions in populate mode, while writing zero bytes into
the destination store and never invoking the destination allocation. -/
theorem C6_metrics_only_skip (inp : LoadInput) (hmo : inp.metricsOnly = true)
    (hx : 0 ≤ inp.x_offset) (hy : 0 ≤ inp.y_offset)
    (hrect : inp.populate = false →
      inp.x_offset.toNat + inp.metrics.width ≤ inp.map.width ∧
      inp.y_offset.toNat + inp.metrics.height ≤ inp.map.rows ∧
      inp.pix_bits = 32 ∧ inp.map.pixel_mode = FT_PIXEL_MODE_BGRA)
    (halloc : inp.scratchAllocOk = true)
    (w h : Nat) (px : Nat → Pixel) (hdec : inp.decode = .ok w h px)
    (hdim : inp.populate = true → w % 65536 ≤ 32767 ∧ h % 65536 ≤ 32767) :
    (Load_SBit_Png inp).error = .Ok ∧
      (∀ o : Int, (Load_SBit_Png inp).map.buffer o = inp.map.buffer o) ∧
      (inp.populate = true →
        (Load_SBit_Png inp).metrics = ⟨w % 65536, h % 65536⟩) ∧
      (Load_SBit_Png inp).destAllocCalled = false := by
  rw [Load_eq_loadDecoded inp hx hy (guard2_false inp hrect) halloc w h px hdec]
  by_cases hpop : inp.populate = true
  · rw [loadDecoded_mo_pop inp w h px hpop hmo (hdim hpop).1 (hdim hpop).2]
    exact ⟨rfl, fun o => rfl, fun _ => rfl, rfl⟩
  · have hpop2 : inp.populate = false := by
      cases hB : inp.populate
      · rfl
      · exact absurd hB hpop
    by_cases hmatch : w = inp.metrics.width ∧ h = inp.metrics.height
    · rw [loadDecoded_mo_verify inp w h px hpop2 hmo hmatch.1 hmatch.2]
      refine ⟨rfl, fun o => rfl, fun hpt => ?_, rfl⟩
      rw [hpop2] at hpt
      exact absurd hpt (by simp)
    · have hnm : w ≠ inp.metrics.width ∨ h ≠ inp.metrics.height := by tauto
      rw [loadDecoded_mismatch inp w h px hpop2 hnm]
      refine ⟨rfl, fun o => rfl, fun hpt => ?_, rfl⟩
      rw [hpop2] at hpt
      exact absurd hpt (by simp)

theorem C6_metrics_only_skip_witness :
    (Load_SBit_Png c6okInput).error = .Ok ∧
      (∀ o : Int, (Load_SBit_Png c6okInput).map.buffer o = c6okInput.map.buffer o) ∧
      (c6okInput.populate = true →
        (Load_SBit_Png c6okInput).metrics = ⟨3 % 65536, 2 % 65536⟩) ∧
      (Load_SBit_Png c6okInput).destAllocCalled = false :=
  C6_metrics_only_skip c6okInput rfl (by decide) (by decide)
    (fun hf => absurd hf (by decide)) rfl 3 2 (pxConst ⟨1, 2, 3, 4⟩) rfl
    (fun _ => ⟨by decide, by decide⟩)

/-- Claim C7: on the verify-mode blit path (rows of the destination not
overlapping, the pitch being at least the 4 * width row size), every row
i places exactly width * 4 converted bytes starting at destination byte
offset (y_offset + i) * pitch + x_offset * 4, and every destination byte
outside these per-row spans keeps its pre-call value. -/
theorem C7_blit_rectangle (inp : LoadInput) (hpop : inp.populate = false)
    (hmo : inp.metricsOnly = false)
    (hx : 0 ≤ inp.x_offset) (hy : 0 ≤ inp.y_offset)
    (hgw : inp.x_offset.toNat + inp.metrics.width ≤ inp.map.width)
    (hgh : inp.y_offset.toNat + inp.metrics.height ≤ inp.map.rows)
    (hp : inp.pix_bits = 32) (hmode : inp.map.pixel_mode = FT_PIXEL_MODE_BGRA)
    (halloc : inp.scratchAllocOk = true)
    (w h : Nat) (px : Nat → Pixel) (hdec : inp.decode = .ok w h px)
    (hw : w = inp.metrics.width) (hh : h = inp.metrics.height)
    (hpitch : 4 * (w : Int) ≤ inp.map.pitch) :
    (Load_SBit_Png inp).error = .Ok ∧
      (∀ i : Nat, i < h → ∀ k : Nat, k < 4 * w →
        (Load_SBit_Png inp).map.buffer
            ((inp.y_offset + i) * inp.map.pitch + inp.x_offset * 4 + k) =
          convertedByte px (i * (4 * w) + k)) ∧
      (∀ o : Int,
        (∀ i : Nat, i < h →
          o < (inp.y_offset + i) * inp.map.pitch + inp.x_offset * 4 ∨
            (inp.y_offset + i) * inp.map.pitch + inp.x_offset * 4 +
              ((4 * w : Nat) : Int) ≤ o) →
        (Load_SBit_Png inp).map.buffer o = inp.map.buffer o) := by
  rw [Load_verify_success inp hpop hmo hx hy hgw hgh hp hmode halloc w h px hdec hw hh]
  refine ⟨rfl, ?_, ?_⟩
  · intro i hi k hk
    exact blitRows_in inp.map.buffer inp.map.pitch (inp.x_offset * 4) inp.y_offset
      (convertedByte px) w h i k hi hk hpitch
  · intro o ho
    exact blitRows_notin inp.map.buffer inp.map.pitch (inp.x_offset * 4) inp.y_offset
      (convertedByte px) w h o ho

theorem C7_blit_rectangle_witness :
    (Load_SBit_Png c7Input).error = .Ok ∧
      (∀ i : Nat, i < 1 → ∀ k : Nat, k < 4 * 1 →
        (Load_SBit_Png c7Input).map.buffer
            ((c7Input.y_offset + i) * c7Input.map.pitch + c7Input.x_offset * 4 + k) =
          convertedByte (pxConst ⟨1, 2, 3, 255⟩) (i * (4 * 1) + k)) ∧
      (∀ o : Int,
        (∀ i : Nat, i < 1 →
          o < (c7Input.y_offset + i) * c7Input.map.pitch + c7Input.x_offset * 4 ∨
            (c7Input.y_offset + i) * c7Input.map.pitch + c7Input.x_offset * 4 +
              ((4 * 1 : Nat) : Int) ≤ o) →
        (Load_SBit_Png c7Input).map.buffer o = c7Input.map.buffer o) :=
  C7_blit_rectangle c7Input rfl rfl (by decide) (by decide) (by decide) (by decide)
    rfl rfl rfl 1 1 (pxConst ⟨1, 2, 3, 255⟩) rfl rfl rfl (by decide)

end Pngshim
